import Mathlib

/-!
Shallow embedding of the `ddcutil-rs` safe wrapper layer
(`src/ddcutil/src/display.rs`, `src/ddcutil/src/features.rs`).

Foreign (C library) behaviour is modelled by explicit oracle structures
(`*Ffi`) supplying the status codes and out-parameter data a single foreign
call would produce, and by a trace of `FfiEvent`s recording which foreign
calls the wrapper issues and in which order.  Machine integers are modelled
as `Nat`/`Int`; byte strings as `List Nat`.
-/

namespace Ddcutil

/-! ## Error translation

The status translator lives in the crate's `lib.rs`, which is not part of
the sources provided; only its callers are.  Modelled from the spec:
"given a signed integer status code returned by any foreign call, produce
either a success value or a typed failure. Zero means success; any nonzero
value maps deterministically to an error kind."
-/

/-- Modelled from the spec: a typed error carrying the foreign status code
(the crate's `Error` type from `lib.rs`, which is not under `src/`). -/
structure Error where
  status : Int
deriving DecidableEq, BEq

/-- Modelled from the spec: `Error::from_status` — status `0` is success,
any nonzero status is a typed error. -/
def Error.from_status (status : Int) : Except Error Unit :=
  if status = 0 then .ok () else .error ⟨status⟩

/-! ## features.rs: Value -/

/-- Non-table VCP value: four `u8` fields (`features.rs`).  Bytes are
modelled as `Nat`, with the `u8` bound `< 256` carried as a hypothesis
where it matters. -/
structure Value where
  mh : Nat
  ml : Nat
  sh : Nat
  sl : Nat
deriving DecidableEq, BEq

/-- Raw `DDCA_Non_Table_Vcp_Value`: same four byte fields. -/
structure DDCA_Non_Table_Vcp_Value where
  mh : Nat
  ml : Nat
  sh : Nat
  sl : Nat
deriving DecidableEq, BEq

/-- `Value::from_raw`: direct field copy. -/
def Value.from_raw (raw : DDCA_Non_Table_Vcp_Value) : Value :=
  { mh := raw.mh, ml := raw.ml, sh := raw.sh, sl := raw.sl }

/-- `Value::value`: `((self.sh as u16) << 8) | self.sl as u16`.  The final
`% 2 ^ 16` reflects that the computation happens in `u16`. -/
def Value.value (v : Value) : Nat :=
  ((v.sh <<< 8) ||| v.sl) % 2 ^ 16

/-- `Value::maximum`: `((self.mh as u16) << 8) | self.ml as u16`. -/
def Value.maximum (v : Value) : Nat :=
  ((v.mh <<< 8) ||| v.ml) % 2 ^ 16

/-! ## features.rs: MccsVersion -/

/-- Raw `DDCA_MCCS_Version_Spec`: two `u8` fields. -/
structure DDCA_MCCS_Version_Spec where
  major : Nat
  minor : Nat
deriving DecidableEq, BEq

/-- `MccsVersion` (`features.rs`). -/
structure MccsVersion where
  major : Nat
  minor : Nat
deriving DecidableEq, BEq

/-- `MccsVersion::from_raw`. -/
def MccsVersion.from_raw (raw : DDCA_MCCS_Version_Spec) : MccsVersion :=
  { major := raw.major, minor := raw.minor }

/-- `MccsVersion::to_raw`. -/
def MccsVersion.to_raw (v : MccsVersion) : DDCA_MCCS_Version_Spec :=
  { major := v.major, minor := v.minor }

/-! ## display.rs: DisplayPath -/

/-- Foreign `DDCA_IO_Mode` tag values (generated bindings; three distinct
enum constants in the C header's declaration order). -/
def DDCA_IO_Mode_DDCA_IO_I2C : Int := 0

def DDCA_IO_Mode_DDCA_IO_ADL : Int := 1

def DDCA_IO_Mode_DDCA_IO_USB : Int := 2

/-- Raw `DDCA_IO_Path`: a mode tag plus the union's payload fields (all
modelled as present at once, as reading the union is only meaningful for
the matching tag). -/
structure DDCA_IO_Path where
  io_mode : Int
  i2c_busno : Int
  hiddev_devno : Int
  adl_iAdapterIndex : Int
  adl_iDisplayIndex : Int
deriving DecidableEq, BEq

/-- `DisplayPath` (`display.rs`): closed variant over the three transports. -/
inductive DisplayPath where
  | I2c (bus_number : Int)
  | Usb (bus_number : Int) (device_number : Int) (hiddev_device_number : Int)
  | Adl (adapter_index : Int) (display_index : Int)
deriving DecidableEq, BEq

/-- `DisplayPath::from_raw`: match on the foreign mode tag, `Err(())` on an
unrecognized tag. -/
def DisplayPath.from_raw (path : DDCA_IO_Path) (usb_bus : Int) (usb_device : Int) :
    Except Unit DisplayPath :=
  if path.io_mode = DDCA_IO_Mode_DDCA_IO_I2C then
    .ok (.I2c path.i2c_busno)
  else if path.io_mode = DDCA_IO_Mode_DDCA_IO_USB then
    .ok (.Usb usb_bus usb_device path.hiddev_devno)
  else if path.io_mode = DDCA_IO_Mode_DDCA_IO_ADL then
    .ok (.Adl path.adl_iAdapterIndex path.adl_iDisplayIndex)
  else
    .error ()

/-! ## display.rs: DisplayInfo -/

/-- A nullable C string, as handed over by the foreign side: `none` is a
null pointer, `some bs` a NUL-terminated string with content bytes `bs`. -/
def CStrPtr : Type := Option (List Nat)

/-- Raw `DDCA_Display_Info` record (the fields `display.rs` reads). -/
structure DDCA_Display_Info where
  dref : Nat
  dispno : Int
  mfg_id : CStrPtr
  model_name : CStrPtr
  sn : CStrPtr
  edid_bytes : List Nat
  path : DDCA_IO_Path
  usb_bus : Int
  usb_device : Int

/-- The local `from_ptr` helper in `DisplayInfo::from_raw`: a null pointer
becomes the empty byte vector, otherwise the C string's bytes are copied. -/
def from_ptr : CStrPtr → List Nat
  | none => []
  | some bs => bs

/-- `DisplayInfo` (`display.rs`): owned snapshot of one display record. -/
structure DisplayInfo where
  handle : Nat
  display_number : Int
  manufacturer_id : List Nat
  model_name : List Nat
  serial_number : List Nat
  edid : List Nat
  path : DisplayPath

/-- `DisplayInfo::from_raw`: copy every field out of the raw record; on a
path-discriminant failure substitute the USB fallback with
`hiddev_device_number = -1`. -/
def DisplayInfo.from_raw (raw : DDCA_Display_Info) : DisplayInfo :=
  { handle := raw.dref
    display_number := raw.dispno
    manufacturer_id := from_ptr raw.mfg_id
    model_name := from_ptr raw.model_name
    serial_number := from_ptr raw.sn
    edid := raw.edid_bytes
    path :=
      match DisplayPath.from_raw raw.path raw.usb_bus raw.usb_device with
      | .ok p => p
      | .error _ => .Usb raw.usb_bus raw.usb_device (-1) }

/-- `DisplayInfo::manufacturer_id_bytes`. -/
def DisplayInfo.manufacturer_id_bytes (d : DisplayInfo) : List Nat :=
  d.manufacturer_id

/-- `DisplayInfo::model_name_bytes`. -/
def DisplayInfo.model_name_bytes (d : DisplayInfo) : List Nat :=
  d.model_name

/-- `DisplayInfo::serial_number_bytes`. -/
def DisplayInfo.serial_number_bytes (d : DisplayInfo) : List Nat :=
  d.serial_number

/-! UTF-8 lossy decoding, modelling Rust std's `String::from_utf8_lossy`
(library code outside this repository): decode UTF-8, emitting U+FFFD for
invalid sequences and restarting at the first offending byte. -/

/-- Is `b` a UTF-8 continuation byte (`0x80..=0xBF`)? -/
def isUtf8Cont (b : Nat) : Bool :=
  0x80 ≤ b && b < 0xC0

/-- The Unicode replacement character U+FFFD. -/
def replChar : Char := Char.ofNat 0xFFFD

/-- Valid second-byte range for a three-byte sequence led by `b1`
(excluding overlong encodings and surrogates). -/
def utf8Valid3Snd (b1 b2 : Nat) : Bool :=
  if b1 = 0xE0 then 0xA0 ≤ b2 && b2 < 0xC0
  else if b1 = 0xED then 0x80 ≤ b2 && b2 < 0xA0
  else isUtf8Cont b2

/-- Valid second-byte range for a four-byte sequence led by `b1`
(excluding overlong encodings and values beyond U+10FFFF). -/
def utf8Valid4Snd (b1 b2 : Nat) : Bool :=
  if b1 = 0xF0 then 0x90 ≤ b2 && b2 < 0xC0
  else if b1 = 0xF4 then 0x80 ≤ b2 && b2 < 0x90
  else isUtf8Cont b2

/-- UTF-8 lossy decoding of a byte list into characters. -/
def decodeUtf8Lossy : List Nat → List Char
  | [] => []
  | b1 :: rest =>
    if b1 < 0x80 then
      Char.ofNat b1 :: decodeUtf8Lossy rest
    else if 0xC2 ≤ b1 && b1 < 0xE0 then
      match rest with
      | [] => [replChar]
      | b2 :: rest2 =>
        if isUtf8Cont b2 then
          Char.ofNat ((b1 - 0xC0) * 0x40 + (b2 - 0x80)) :: decodeUtf8Lossy rest2
        else
          replChar :: decodeUtf8Lossy (b2 :: rest2)
    else if 0xE0 ≤ b1 && b1 < 0xF0 then
      match rest with
      | [] => [replChar]
      | b2 :: rest2 =>
        if utf8Valid3Snd b1 b2 then
          match rest2 with
          | [] => [replChar]
          | b3 :: rest3 =>
            if isUtf8Cont b3 then
              Char.ofNat ((b1 - 0xE0) * 0x1000 + (b2 - 0x80) * 0x40 + (b3 - 0x80)) ::
                decodeUtf8Lossy rest3
            else
              replChar :: decodeUtf8Lossy (b3 :: rest3)
        else
          replChar :: decodeUtf8Lossy (b2 :: rest2)
    else if 0xF0 ≤ b1 && b1 < 0xF5 then
      match rest with
      | [] => [replChar]
      | b2 :: rest2 =>
        if utf8Valid4Snd b1 b2 then
          match rest2 with
          | [] => [replChar]
          | b3 :: rest3 =>
            if isUtf8Cont b3 then
              match rest3 with
              | [] => [replChar]
              | b4 :: rest4 =>
                if isUtf8Cont b4 then
                  Char.ofNat ((b1 - 0xF0) * 0x40000 + (b2 - 0x80) * 0x1000 +
                      (b3 - 0x80) * 0x40 + (b4 - 0x80)) :: decodeUtf8Lossy rest4
                else
                  replChar :: decodeUtf8Lossy (b4 :: rest4)
            else
              replChar :: decodeUtf8Lossy (b3 :: rest3)
        else
          replChar :: decodeUtf8Lossy (b2 :: rest2)
    else
      replChar :: decodeUtf8Lossy rest
termination_by l => l.length

/-- `String::from_utf8_lossy`, producing an owned string. -/
def from_utf8_lossy (bs : List Nat) : String :=
  String.mk (decodeUtf8Lossy bs)

/-- `DisplayInfo::manufacturer_id` (lossy text view). -/
def DisplayInfo.manufacturer_id_text (d : DisplayInfo) : String :=
  from_utf8_lossy d.manufacturer_id

/-- `DisplayInfo::model_name` (lossy text view). -/
def DisplayInfo.model_name_text (d : DisplayInfo) : String :=
  from_utf8_lossy d.model_name

/-- `DisplayInfo::serial_number` (lossy text view). -/
def DisplayInfo.serial_number_text (d : DisplayInfo) : String :=
  from_utf8_lossy d.serial_number

/-! ## Foreign-call traces

Each wrapper operation is embedded as a pure function that, besides its
result, returns the list of foreign calls it performs, in order.  The
`tableCopyDone` marker records the completion of the defensive copy out of
the foreign table buffer (the `to_owned()` in `vcp_get_table`), so that
the copy-then-free ordering is visible in the trace. -/

/-- One foreign interaction performed by the wrapper. -/
inductive FfiEvent where
  | openCall (dref : Nat) (wait : Bool)
  | closeCall (handle : Nat)
  | enumerateCall (includeInvalid : Bool)
  | freeListCall (handle : Nat)
  | setVcpCall (handle : Nat) (code : Nat) (hiByte : Nat) (loByte : Nat)
  | getVcpCall (handle : Nat) (code : Nat)
  | getTableCall (handle : Nat) (code : Nat)
  | tableCopyDone (ptr : Nat)
  | freeTableCall (ptr : Nat)
  | parseCapsCall
  | freeParsedCapsCall (ptr : Nat)
deriving DecidableEq, BEq

/-- Is this event a `ddca_close_display` call? -/
def FfiEvent.isClose : FfiEvent → Bool
  | .closeCall _ => true
  | _ => false

/-- Number of `ddca_close_display` calls in a trace. -/
def countClose (tr : List FfiEvent) : Nat :=
  (tr.filter FfiEvent.isClose).length

/-- Number of occurrences of one specific foreign call in a trace. -/
def countEvent (tr : List FfiEvent) (e : FfiEvent) : Nat :=
  (tr.filter fun x => x = e).length

/-! ## display.rs: Display session -/

/-- `Display` (`display.rs`): wraps one open foreign display handle. -/
structure Display where
  handle : Nat
deriving DecidableEq, BEq

/-- `Display::from_raw`. -/
def Display.from_raw (handle : Nat) : Display :=
  { handle }

/-- Oracle for one `ddca_open_display2` call: the status it returns and the
handle it writes on success. -/
structure OpenFfi where
  status : Int
  handle : Nat

/-- `DisplayInfo::open`: one foreign open call; on nonzero status the error
is surfaced and no `Display` is constructed. -/
def DisplayInfo.openDisplay (ffi : OpenFfi) (info : DisplayInfo) (wait : Bool) :
    Except Error Display × List FfiEvent :=
  ((Error.from_status ffi.status).map fun _ => Display.from_raw ffi.handle,
   [.openCall info.handle wait])

/-- `Drop for Display`: one `ddca_close_display` call on the handle. -/
def Display.dropEvents (d : Display) : List FfiEvent :=
  [.closeCall d.handle]

/-- Rust ownership discipline around a session, embedded explicitly: open
the display, run the body on the session (the body's own foreign calls are
appended to the trace), and — iff the open succeeded — run the `Drop`
implementation exactly when the session goes out of scope at the end.
A failed open constructs no `Display`, so nothing is dropped. -/
def runSession {α : Type} (ffi : OpenFfi) (info : DisplayInfo) (wait : Bool)
    (body : Display → α × List FfiEvent) : Except Error α × List FfiEvent :=
  match DisplayInfo.openDisplay ffi info wait with
  | (.error e, tr) => (.error e, tr)
  | (.ok d, tr) =>
    let (a, ev) := body d
    (.ok a, tr ++ ev ++ d.dropEvents)

/-- Oracle for one `ddca_set_non_table_vcp_value` call. -/
structure SetFfi where
  status : Int

/-- `Display::vcp_set_value`: one foreign set call, passing `value` as the
foreign `hi_byte` argument and the constant `0` as `lo_byte`. -/
def Display.vcp_set_value (ffi : SetFfi) (d : Display) (code : Nat) (value : Nat) :
    Except Error Unit × List FfiEvent :=
  ((Error.from_status ffi.status).map fun _ => (),
   [.setVcpCall d.handle code value 0])

/-- Oracle for one `ddca_get_non_table_vcp_value` call. -/
structure GetFfi where
  status : Int
  raw : DDCA_Non_Table_Vcp_Value

/-- `Display::vcp_get_value`: one foreign get call; on success the raw
record is converted by `Value::from_raw`. -/
def Display.vcp_get_value (ffi : GetFfi) (d : Display) (code : Nat) :
    Except Error Value × List FfiEvent :=
  ((Error.from_status ffi.status).map fun _ => Value.from_raw ffi.raw,
   [.getVcpCall d.handle code])

/-- Oracle for one `ddca_get_table_vcp_value` call: the status, the foreign
buffer (its address, its memory contents, and the reported byte count). -/
structure TableFfi where
  status : Int
  ptr : Nat
  mem : Nat → Nat
  bytect : Nat

/-- `Display::vcp_get_table`: one foreign get call; on success the
`bytect` bytes behind the foreign pointer are copied into an owned vector,
and only then is the foreign buffer freed. -/
def Display.vcp_get_table (ffi : TableFfi) (d : Display) (code : Nat) :
    Except Error (List Nat) × List FfiEvent :=
  match Error.from_status ffi.status with
  | .error e => (.error e, [.getTableCall d.handle code])
  | .ok _ =>
    let value := (List.range ffi.bytect).map ffi.mem
    (.ok value,
     [.getTableCall d.handle code, .tableCopyDone ffi.ptr, .freeTableCall ffi.ptr])

/-! ## display.rs: enumeration -/

/-- Oracle for one `ddca_get_display_info_list2` call: the status and the
entries of the foreign-allocated list it returns on success. -/
structure EnumFfi where
  status : Int
  listHandle : Nat
  entries : List DDCA_Display_Info

/-- `DisplayInfoList` (`display.rs`): view of the foreign-allocated list. -/
structure DisplayInfoList where
  handle : Nat
  list : List DDCA_Display_Info

/-- `DisplayInfoList::from_raw`. -/
def DisplayInfoList.from_raw (handle : Nat) (entries : List DDCA_Display_Info) :
    DisplayInfoList :=
  { handle, list := entries }

/-- `DisplayInfoList::len`. -/
def DisplayInfoList.len (l : DisplayInfoList) : Nat :=
  l.list.length

/-- `DisplayInfoList::get`: deep-copy one record into a `DisplayInfo`. -/
def DisplayInfoList.get (l : DisplayInfoList) (index : Nat) (h : index < l.list.length) :
    DisplayInfo :=
  DisplayInfo.from_raw (l.list.get ⟨index, h⟩)

/-- `DisplayInfo::enumerate`: one foreign enumeration call; nonzero status
becomes a typed error, success wraps the returned list (possibly empty). -/
def DisplayInfo.enumerate (ffi : EnumFfi) (include_invalid_display : Bool) :
    Except Error DisplayInfoList × List FfiEvent :=
  ((Error.from_status ffi.status).map fun _ =>
      DisplayInfoList.from_raw ffi.listHandle ffi.entries,
   [.enumerateCall include_invalid_display])

/-! ## features.rs: Capabilities -/

/-- Raw `DDCA_Cap_Vcp` entry: one feature code and its declared value
bytes (the `values`/`value_ct` array, already as a list). -/
structure DDCA_Cap_Vcp where
  feature_code : Nat
  values : List Nat
deriving DecidableEq, BEq

/-- Raw `DDCA_Capabilities` parse tree (the fields `features.rs` reads):
the MCCS version and the `vcp_codes`/`vcp_code_ct` array. -/
structure DDCA_Capabilities where
  version_spec : DDCA_MCCS_Version_Spec
  vcp_codes : List DDCA_Cap_Vcp
deriving DecidableEq, BEq

/-- Insertion into a hash map modelled as an association list: an existing
binding of the key is replaced, otherwise the binding is appended.  This is
the semantics of Rust's `HashMap` insertion (iteration order aside). -/
def hashInsert (m : List (Nat × List Nat)) (k : Nat) (v : List Nat) :
    List (Nat × List Nat) :=
  if m.any fun p => p.1 = k then
    m.map fun p => if p.1 = k then (k, v) else p
  else
    m ++ [(k, v)]

/-- `collect::<HashMap<_,_>>()` over key-value pairs: left fold of
insertions into the empty map. -/
def hashCollect (l : List (Nat × List Nat)) : List (Nat × List Nat) :=
  l.foldl (fun m p => hashInsert m p.1 p.2) []

/-- Map lookup (`HashMap::get`). -/
def hashGet (m : List (Nat × List Nat)) (k : Nat) : Option (List Nat) :=
  (m.find? fun p => p.1 = k).map fun p => p.2

/-- The keys of a map. -/
def hashKeys (m : List (Nat × List Nat)) : List Nat :=
  m.map fun p => p.1

/-- `Capabilities` (`features.rs`): MCCS version plus the feature map. -/
structure Capabilities where
  version : MccsVersion
  features : List (Nat × List Nat)
deriving DecidableEq, BEq

/-- `Capabilities::from_raw`: convert the version, then collect each
`(feature_code, deep copy of values)` pair into the features map. -/
def Capabilities.from_raw (raw : DDCA_Capabilities) : Capabilities :=
  { version := MccsVersion.from_raw raw.version_spec
    features := hashCollect (raw.vcp_codes.map fun f => (f.feature_code, f.values)) }

/-- Oracle for one `ddca_parse_capabilities_string` call: the status and,
on success, the parse tree it allocates (its address and contents).

Modelled from the spec: the foreign parser itself is outside this layer;
for an accepted capability string its tree's `vcp_codes` holds one entry
per feature code appearing in the source string, with that feature's
declared value list in source order.  The theorems below therefore take
the distinctness of the produced feature codes as a hypothesis. -/
structure ParseFfi where
  status : List Nat → Int
  ptr : Nat
  raw : List Nat → DDCA_Capabilities

/-- `Capabilities::from_cstr`: invoke the foreign parser on the capability
string's bytes; on failure surface the error unchanged; on success build
the owned `Capabilities` from the tree, then free the tree. -/
def Capabilities.from_cstr (ffi : ParseFfi) (caps : List Nat) :
    Except Error Capabilities × List FfiEvent :=
  match Error.from_status (ffi.status caps) with
  | .error e => (.error e, [.parseCapsCall])
  | .ok _ =>
    (.ok (Capabilities.from_raw (ffi.raw caps)),
     [.parseCapsCall, .freeParsedCapsCall ffi.ptr])

/-! ## Concrete witness data -/

/-- A concrete raw record with an unrecognized mode tag (for witnesses). -/
def exampleBadRaw : DDCA_Display_Info :=
  { dref := 1
    dispno := 1
    mfg_id := none
    model_name := none
    sn := none
    edid_bytes := []
    path := { io_mode := 9, i2c_busno := 3, hiddev_devno := 4,
              adl_iAdapterIndex := 5, adl_iDisplayIndex := 6 }
    usb_bus := 7
    usb_device := 8 }

/-- A concrete `DisplayInfo` (for witnesses). -/
def exampleInfo : DisplayInfo :=
  DisplayInfo.from_raw exampleBadRaw

/-- A concrete session body performing one successful set call and one
failing table read (for witnesses). -/
def exampleBody (d : Display) :
    (Except Error Unit × Except Error (List Nat)) × List FfiEvent :=
  let (r1, t1) := Display.vcp_set_value { status := 0 } d 0x10 50
  let (r2, t2) := Display.vcp_get_table
    { status := -3021, ptr := 0, mem := fun _ => 0, bytect := 0 } d 0x73
  ((r1, r2), t1 ++ t2)

/-! ## Helper lemmas -/

/-- Composing a shifted high part with a low part below `2 ^ k` by bitwise
or is exact addition. -/
theorem shiftLeft_lor_eq_add (k : Nat) :
    ∀ a b : Nat, b < 2 ^ k → (a <<< k) ||| b = a * 2 ^ k + b := by
  induction k with
  | zero =>
    intro a b hb
    interval_cases b
    simp [Nat.shiftLeft_eq]
  | succ k ih =>
    intro a b hb
    have hb2 : b / 2 < 2 ^ k := by
      rw [pow_succ] at hb
      omega
    have e1 : a <<< (k + 1) = Nat.bit false (a <<< k) := by
      simp [Nat.bit_val, Nat.shiftLeft_eq, pow_succ]
      ring
    have e2 : b = Nat.bit (decide (b % 2 = 1)) (b / 2) := by
      rw [Nat.bit_val]
      rcases Nat.mod_two_eq_zero_or_one b with h | h <;> simp [h] <;> omega
    rw [e1]
    conv_lhs => rw [e2]
    rw [Nat.lor_bit, Bool.false_or, Nat.bit_val, ih a (b / 2) hb2]
    have hm : (decide (b % 2 = 1)).toNat = b % 2 := by
      rcases Nat.mod_two_eq_zero_or_one b with h | h <;> simp [h]
    have hp : a * 2 ^ (k + 1) = 2 * (a * 2 ^ k) := by
      rw [pow_succ]
      ring
    rw [hm, hp]
    omega

/-- Folding hash insertions over pairs whose keys are fresh for the
accumulator and mutually distinct just appends the pairs. -/
theorem hashCollect_go_eq (l : List (Nat × List Nat)) :
    ∀ m : List (Nat × List Nat), (((m ++ l).map Prod.fst).Nodup) →
      List.foldl (fun m p => hashInsert m p.1 p.2) m l = m ++ l := by
  induction l with
  | nil =>
    intro m _
    simp
  | cons p t ih =>
    intro m hnd
    have hmem : p.1 ∉ m.map Prod.fst := by
      intro hk
      have hd : ((m ++ p :: t).map Prod.fst).Nodup := hnd
      rw [List.map_append, List.nodup_append] at hd
      exact hd.2.2 hk (by simp)
    have hc : (m.any fun q => q.1 = p.1) = false := by
      rw [List.any_eq_false]
      intro q hq
      simp only [decide_eq_true_eq]
      intro he
      exact hmem (he ▸ List.mem_map_of_mem Prod.fst hq)
    have hins : hashInsert m p.1 p.2 = m ++ [p] := by
      simp [hashInsert, hc]
    rw [List.foldl_cons, hins, ih (m ++ [p]) (by simpa using hnd)]
    simp

/-- With pairwise-distinct keys, collecting into a hash map keeps exactly
the input pairs. -/
theorem hashCollect_eq_of_nodup (l : List (Nat × List Nat))
    (h : (l.map Prod.fst).Nodup) : hashCollect l = l := by
  have := hashCollect_go_eq l [] (by simpa using h)
  simpa [hashCollect] using this

/-- In an association list with pairwise-distinct keys, lookup of a present
key finds exactly its pair. -/
theorem find?_eq_of_mem_of_nodup (l : List (Nat × List Nat)) (k : Nat)
    (v : List Nat) (hnd : (l.map Prod.fst).Nodup) (hmem : (k, v) ∈ l) :
    l.find? (fun p => p.1 = k) = some (k, v) := by
  induction l with
  | nil => cases hmem
  | cons q t ih =>
    rw [List.map_cons, List.nodup_cons] at hnd
    rcases List.mem_cons.mp hmem with h | h
    · subst h
      simp [List.find?]
    · have hq : q.1 ≠ k := by
        intro he
        exact hnd.1 (he ▸ List.mem_map_of_mem Prod.fst h)
      rw [List.find?]
      simp only [hq, decide_eq_true_eq, if_neg]
      simpa [hq] using ih hnd.2 h

/-! ## Claim theorems -/

/-- Claim C7: for every `Value` with byte fields `mh ml sh sl`, `value()`
equals `(sh << 8) | sl` and `maximum()` equals `(mh << 8) | ml` as exact
16-bit unsigned integers, and each accessor depends only on its own byte
pair. -/
theorem claim_C7_value_accessors (v : Value)
    (hmh : v.mh < 256) (hml : v.ml < 256) (hsh : v.sh < 256) (hsl : v.sl < 256) :
    v.value = (v.sh <<< 8) ||| v.sl ∧
    v.maximum = (v.mh <<< 8) ||| v.ml ∧
    v.value = 256 * v.sh + v.sl ∧
    v.maximum = 256 * v.mh + v.ml ∧
    v.value < 2 ^ 16 ∧
    v.maximum < 2 ^ 16 ∧
    (∀ w : Value, w.sh = v.sh → w.sl = v.sl → w.value = v.value) ∧
    (∀ w : Value, w.mh = v.mh → w.ml = v.ml → w.maximum = v.maximum) := by
  have hv : (v.sh <<< 8) ||| v.sl = 256 * v.sh + v.sl := by
    rw [shiftLeft_lor_eq_add 8 v.sh v.sl (by omega)]
    ring
  have hmx : (v.mh <<< 8) ||| v.ml = 256 * v.mh + v.ml := by
    rw [shiftLeft_lor_eq_add 8 v.mh v.ml (by omega)]
    ring
  have hv' : v.value = 256 * v.sh + v.sl := by
    rw [Value.value, hv, Nat.mod_eq_of_lt (by omega)]
  have hmx' : v.maximum = 256 * v.mh + v.ml := by
    rw [Value.maximum, hmx, Nat.mod_eq_of_lt (by omega)]
  refine ⟨by rw [hv', hv], by rw [hmx', hmx], hv', hmx', by omega, by omega, ?_, ?_⟩
  · intro w h1 h2
    rw [Value.value, Value.value, h1, h2]
  · intro w h1 h2
    rw [Value.maximum, Value.maximum, h1, h2]

/-- Witness for C7 at the concrete quadruple `(1, 2, 3, 4)`. -/
theorem claim_C7_witness :
    (Value.mk 1 2 3 4).value = 256 * 3 + 4 :=
  (claim_C7_value_accessors ⟨1, 2, 3, 4⟩ (by decide) (by decide) (by decide)
    (by decide)).2.2.1

/-- Claim C8: converting any `MccsVersion` to the foreign representation
and back is the identity. -/
theorem claim_C8_mccs_roundtrip (major minor : Nat) :
    MccsVersion.from_raw (MccsVersion.to_raw ⟨major, minor⟩) = ⟨major, minor⟩ :=
  rfl

/-- Claim C5: `DisplayPath::from_raw` yields exactly the variant matching a
recognized transport-mode tag, and an explicit failure (no path variant)
for every unrecognized tag. -/
theorem claim_C5_path_discriminant (path : DDCA_IO_Path) (usb_bus usb_device : Int) :
    (path.io_mode = DDCA_IO_Mode_DDCA_IO_I2C →
      DisplayPath.from_raw path usb_bus usb_device = .ok (.I2c path.i2c_busno)) ∧
    (path.io_mode = DDCA_IO_Mode_DDCA_IO_USB →
      DisplayPath.from_raw path usb_bus usb_device =
        .ok (.Usb usb_bus usb_device path.hiddev_devno)) ∧
    (path.io_mode = DDCA_IO_Mode_DDCA_IO_ADL →
      DisplayPath.from_raw path usb_bus usb_device =
        .ok (.Adl path.adl_iAdapterIndex path.adl_iDisplayIndex)) ∧
    (path.io_mode ≠ DDCA_IO_Mode_DDCA_IO_I2C →
      path.io_mode ≠ DDCA_IO_Mode_DDCA_IO_USB →
      path.io_mode ≠ DDCA_IO_Mode_DDCA_IO_ADL →
      DisplayPath.from_raw path usb_bus usb_device = .error ()) := by
  refine ⟨?_, ?_, ?_, ?_⟩
  · intro h
    simp [DisplayPath.from_raw, h, DDCA_IO_Mode_DDCA_IO_I2C]
  · intro h
    simp [DisplayPath.from_raw, h, DDCA_IO_Mode_DDCA_IO_I2C, DDCA_IO_Mode_DDCA_IO_USB]
  · intro h
    simp [DisplayPath.from_raw, h, DDCA_IO_Mode_DDCA_IO_I2C, DDCA_IO_Mode_DDCA_IO_USB,
      DDCA_IO_Mode_DDCA_IO_ADL]
  · intro h1 h2 h3
    simp [DisplayPath.from_raw, h1, h2, h3]

/-- Witness for C5 at a concrete record with unrecognized tag `9`. -/
theorem claim_C5_witness :
    DisplayPath.from_raw
      { io_mode := 9, i2c_busno := 3, hiddev_devno := 4,
        adl_iAdapterIndex := 5, adl_iDisplayIndex := 6 } 1 2 = .error () :=
  (claim_C5_path_discriminant
    { io_mode := 9, i2c_busno := 3, hiddev_devno := 4,
      adl_iAdapterIndex := 5, adl_iDisplayIndex := 6 } 1 2).2.2.2
    (by decide) (by decide) (by decide)

/-- Claim C6: `DisplayInfo::from_raw` never fails; on a path-discriminant
failure it carries the USB fallback path built from the record's USB bus
and device numbers with hiddev number `-1`, and copies the remaining
fields as usual. -/
theorem claim_C6_enumeration_fallback (raw : DDCA_Display_Info)
    (h : DisplayPath.from_raw raw.path raw.usb_bus raw.usb_device = .error ()) :
    (DisplayInfo.from_raw raw).path = .Usb raw.usb_bus raw.usb_device (-1) ∧
    (DisplayInfo.from_raw raw).handle = raw.dref ∧
    (DisplayInfo.from_raw raw).display_number = raw.dispno ∧
    (DisplayInfo.from_raw raw).manufacturer_id = from_ptr raw.mfg_id ∧
    (DisplayInfo.from_raw raw).model_name = from_ptr raw.model_name ∧
    (DisplayInfo.from_raw raw).serial_number = from_ptr raw.sn ∧
    (DisplayInfo.from_raw raw).edid = raw.edid_bytes := by
  refine ⟨?_, rfl, rfl, rfl, rfl, rfl, rfl⟩
  simp [DisplayInfo.from_raw, h]

/-- Witness for C6 at a concrete record with unrecognized tag `9`. -/
theorem claim_C6_witness :
    (DisplayInfo.from_raw exampleBadRaw).path = .Usb 7 8 (-1) :=
  (claim_C6_enumeration_fallback exampleBadRaw rfl).1

/-- Claim C10: a null manufacturer-id, model-name or serial-number pointer
yields an empty byte sequence in the constructed `DisplayInfo`, so the
bytes accessor returns an empty slice and the lossy text accessor returns
an empty string. -/
theorem claim_C10_null_cstring_fields (raw : DDCA_Display_Info) :
    (raw.mfg_id = none →
      (DisplayInfo.from_raw raw).manufacturer_id_bytes = [] ∧
      (DisplayInfo.from_raw raw).manufacturer_id_text = "") ∧
    (raw.model_name = none →
      (DisplayInfo.from_raw raw).model_name_bytes = [] ∧
      (DisplayInfo.from_raw raw).model_name_text = "") ∧
    (raw.sn = none →
      (DisplayInfo.from_raw raw).serial_number_bytes = [] ∧
      (DisplayInfo.from_raw raw).serial_number_text = "") := by
  refine ⟨?_, ?_, ?_⟩ <;> intro h <;>
    simp [DisplayInfo.from_raw, DisplayInfo.manufacturer_id_bytes,
      DisplayInfo.manufacturer_id_text, DisplayInfo.model_name_bytes,
      DisplayInfo.model_name_text, DisplayInfo.serial_number_bytes,
      DisplayInfo.serial_number_text, from_ptr, from_utf8_lossy,
      decodeUtf8Lossy, h, String.mk]

/-- Witness for C10 at a concrete record with all three pointers null. -/
theorem claim_C10_witness :
    (DisplayInfo.from_raw exampleBadRaw).manufacturer_id_bytes = [] ∧
    (DisplayInfo.from_raw exampleBadRaw).manufacturer_id_text = "" :=
  (claim_C10_null_cstring_fields exampleBadRaw).1 rfl

/-- Claim C9: `Display::vcp_set_value` issues exactly one foreign set call,
with the given value as the foreign `hi_byte` argument and the constant `0`
as `lo_byte`. -/
theorem claim_C9_set_value_call (ffi : SetFfi) (d : Display) (code value : Nat) :
    (Display.vcp_set_value ffi d code value).2 =
      [.setVcpCall d.handle code value 0] ∧
    countEvent (Display.vcp_set_value ffi d code value).2
      (.setVcpCall d.handle code value 0) = 1 :=
  ⟨rfl, by simp [Display.vcp_set_value, countEvent]⟩

/-- Claim C3: `DisplayInfo::enumerate` returns a typed error exactly when
the foreign call reports a nonzero status; a successful foreign call with
zero displays yields a successful empty list of length `0`. -/
theorem claim_C3_enumerate_error_vs_empty (ffi : EnumFfi) (inc : Bool) :
    ((∃ e, (DisplayInfo.enumerate ffi inc).1 = .error e) ↔ ffi.status ≠ 0) ∧
    (ffi.status = 0 →
      (DisplayInfo.enumerate ffi inc).1 =
        .ok (DisplayInfoList.from_raw ffi.listHandle ffi.entries)) ∧
    (ffi.status = 0 → ffi.entries = [] →
      ∃ l, (DisplayInfo.enumerate ffi inc).1 = .ok l ∧ l.len = 0) := by
  by_cases h : ffi.status = 0
  · refine ⟨⟨?_, ?_⟩, ?_, ?_⟩
    · rintro ⟨e, he⟩
      simp [DisplayInfo.enumerate, Error.from_status, h, Except.map] at he
    · intro hne
      exact absurd h hne
    · intro _
      simp [DisplayInfo.enumerate, Error.from_status, h, Except.map]
    · intro _ hempty
      refine ⟨DisplayInfoList.from_raw ffi.listHandle ffi.entries, ?_, ?_⟩
      · simp [DisplayInfo.enumerate, Error.from_status, h, Except.map]
      · simp [DisplayInfoList.from_raw, DisplayInfoList.len, hempty]
  · refine ⟨⟨fun _ => h, fun _ => ?_⟩, fun hz => absurd hz h, fun hz => absurd hz h⟩
    exact ⟨⟨ffi.status⟩, by simp [DisplayInfo.enumerate, Error.from_status, h, Except.map]⟩

/-- Witness for C3: a successful foreign call with zero displays. -/
theorem claim_C3_witness :
    ∃ l, (DisplayInfo.enumerate ⟨0, 7, []⟩ false).1 = .ok l ∧ l.len = 0 :=
  (claim_C3_enumerate_error_vs_empty ⟨0, 7, []⟩ false).2.2 rfl rfl

/-- Claim C4: every successful table read returns an owned byte sequence
whose length is the foreign-reported byte count, and the foreign table
buffer is freed exactly once, strictly after the copy completes. -/
theorem claim_C4_table_copy_then_free (ffi : TableFfi) (d : Display) (code : Nat)
    (v : List Nat) (h : (Display.vcp_get_table ffi d code).1 = .ok v) :
    v.length = ffi.bytect ∧
    countEvent (Display.vcp_get_table ffi d code).2 (.freeTableCall ffi.ptr) = 1 ∧
    ∃ i j : Nat, i < j ∧
      ((Display.vcp_get_table ffi d code).2)[i]? =
        some (FfiEvent.tableCopyDone ffi.ptr) ∧
      ((Display.vcp_get_table ffi d code).2)[j]? =
        some (FfiEvent.freeTableCall ffi.ptr) := by
  by_cases hs : ffi.status = 0
  · have hv : v = (List.range ffi.bytect).map ffi.mem := by
      have := h
      simp [Display.vcp_get_table, Error.from_status, hs] at this
      exact this.symm
    refine ⟨by simp [hv], ?_, 1, 2, by decide, ?_, ?_⟩ <;>
      simp [Display.vcp_get_table, Error.from_status, hs, countEvent]
  · exfalso
    simp [Display.vcp_get_table, Error.from_status, hs] at h

/-- Witness for C4: a successful two-byte table read. -/
theorem claim_C4_witness :
    ([7, 7] : List Nat).length = (2 : Nat) ∧
    countEvent (Display.vcp_get_table ⟨0, 42, fun _ => 7, 2⟩ ⟨1⟩ 0x73).2
      (.freeTableCall 42) = 1 ∧
    ∃ i j : Nat, i < j ∧
      ((Display.vcp_get_table ⟨0, 42, fun _ => 7, 2⟩ ⟨1⟩ 0x73).2)[i]? =
        some (FfiEvent.tableCopyDone 42) ∧
      ((Display.vcp_get_table ⟨0, 42, fun _ => 7, 2⟩ ⟨1⟩ 0x73).2)[j]? =
        some (FfiEvent.freeTableCall 42) :=
  claim_C4_table_copy_then_free ⟨0, 42, fun _ => 7, 2⟩ ⟨1⟩ 0x73 [7, 7] rfl

/-- Claim C2: a failed open performs no foreign close; a successful open is
followed by exactly one foreign close by the time the session leaves
scope, for any session body that itself performs no close (in particular
bodies whose get/set calls fail). -/
theorem claim_C2_session_close_once {α : Type} (ffi : OpenFfi) (info : DisplayInfo)
    (wait : Bool) (body : Display → α × List FfiEvent) :
    (ffi.status ≠ 0 →
      countClose (runSession ffi info wait body).2 = 0 ∧
      ∃ e, (runSession ffi info wait body).1 = .error e) ∧
    (ffi.status = 0 →
      countClose (body (Display.from_raw ffi.handle)).2 = 0 →
      countClose (runSession ffi info wait body).2 = 1) := by
  constructor
  · intro h
    refine ⟨?_, ⟨ffi.status⟩, ?_⟩ <;>
      simp [runSession, DisplayInfo.openDisplay, Error.from_status, h, Except.map,
        countClose, FfiEvent.isClose]
  · intro h hbody
    simp only [runSession, DisplayInfo.openDisplay, Error.from_status, h, if_pos,
      Except.map]
    simp only [countClose, List.filter_append, List.length_append]
    have hb : (List.filter FfiEvent.isClose
        (body (Display.from_raw ffi.handle)).2).length = 0 := hbody
    simp [Display.dropEvents, FfiEvent.isClose, hb]

/-- Witness for C2: a successful open around a body with one successful set
call and one failing table read, and a failed open with the same body. -/
theorem claim_C2_witness :
    countClose (runSession ⟨0, 5⟩ exampleInfo true exampleBody).2 = 1 ∧
    countClose (runSession ⟨-3018, 5⟩ exampleInfo true exampleBody).2 = 0 :=
  ⟨(claim_C2_session_close_once ⟨0, 5⟩ exampleInfo true exampleBody).2 rfl rfl,
   ((claim_C2_session_close_once ⟨-3018, 5⟩ exampleInfo true exampleBody).1
     (by decide)).1⟩

/-- Claim C1: for every capability string the foreign parser accepts (its
parse tree holds one entry per feature code appearing in the source, in
source order), `Capabilities::from_cstr` yields a map in which every such
feature code appears exactly once as a key, bound to its declared value
list unchanged. -/
theorem claim_C1_capabilities_features (ffi : ParseFfi) (caps : List Nat)
    (c : Capabilities)
    (hnodup : (((ffi.raw caps).vcp_codes.map fun f => f.feature_code)).Nodup)
    (hok : (Capabilities.from_cstr ffi caps).1 = .ok c) :
    (∀ f ∈ (ffi.raw caps).vcp_codes, hashGet c.features f.feature_code = some f.values) ∧
    (∀ code, (hashKeys c.features).count code =
      if code ∈ ((ffi.raw caps).vcp_codes.map fun f => f.feature_code) then 1 else 0) := by
  by_cases hs : ffi.status caps = 0
  · have hc : c = Capabilities.from_raw (ffi.raw caps) := by
      have := hok
      simp [Capabilities.from_cstr, Error.from_status, hs] at this
      exact this.symm
    set entries := (ffi.raw caps).vcp_codes.map fun f => (f.feature_code, f.values)
      with hentries
    have hkeys : entries.map Prod.fst =
        (ffi.raw caps).vcp_codes.map fun f => f.feature_code := by
      rw [hentries, List.map_map]
      rfl
    have hnd : (entries.map Prod.fst).Nodup := by
      rw [hkeys]
      exact hnodup
    have hfeat : c.features = entries := by
      rw [hc]
      exact hashCollect_eq_of_nodup entries hnd
    constructor
    · intro f hf
      have hmem : (f.feature_code, f.values) ∈ entries := by
        rw [hentries]
        exact List.mem_map_of_mem _ hf
      rw [hfeat]
      unfold hashGet
      rw [find?_eq_of_mem_of_nodup entries f.feature_code f.values hnd hmem]
      rfl
    · intro code
      rw [hfeat]
      unfold hashKeys
      rw [hkeys]
      by_cases hm : code ∈ (ffi.raw caps).vcp_codes.map fun f => f.feature_code
      · rw [if_pos hm]
        exact List.count_eq_one_of_mem hnodup hm
      · rw [if_neg hm]
        exact List.count_eq_zero_of_not_mem hm
  · exfalso
    simp [Capabilities.from_cstr, Error.from_status, hs] at hok

/-- Witness for C1: the spec's example — version 2.1, feature `0x10` with
declared values `0x00, 0x01, 0x02`. -/
theorem claim_C1_witness :
    hashGet (Capabilities.mk ⟨2, 1⟩ [(0x10, [0x00, 0x01, 0x02])]).features 0x10 =
      some [0x00, 0x01, 0x02] :=
  ((claim_C1_capabilities_features
      ⟨fun _ => 0, 3, fun _ => ⟨⟨2, 1⟩, [⟨0x10, [0x00, 0x01, 0x02]⟩]⟩⟩ []
      (Capabilities.mk ⟨2, 1⟩ [(0x10, [0x00, 0x01, 0x02])])
      (by decide) rfl).1
    ⟨0x10, [0x00, 0x01, 0x02]⟩ (List.mem_singleton.mpr rfl))

end Ddcutil
